import Mathlib

/-!
# Verification of the Personal Finance Tracker (`Pandas_Ver.py`)

A shallow embedding of the data model and the operations of the single-file
personal-finance ledger application, together with theorems settling the
frozen claims about its natural-language specification.

Modelling decisions (stated once here, referenced below):

* Python `float` values are modelled by `PyFloat`: an exact rational for
  finite values plus the special values `inf`, `-inf` and `nan`.  Arithmetic
  on finite values is exact (IEEE-754 rounding of finite operations is not
  modelled); the special values follow IEEE semantics (`nan` is absorbing,
  all comparisons with `nan` are false).  Every claim compares aggregates
  computed the same way on both sides, so exact finite arithmetic is faithful
  for the properties at stake.
* Strings are Lean `String`s.  `str.strip` is modelled by whitespace
  stripping over the character list (`pyStrip`), `str.lower` by ASCII
  lowering; the application's data is ASCII apart from the currency glyph,
  which is handled explicitly.
* CSV serialisation of a cell and re-parsing of the same cell is modelled as
  the identity: Python round-trips `float` → `repr` → `float` exactly, and
  text cells are quoted verbatim by `to_csv`/`read_csv`.
-/

/-- A Python `float` value: an exact rational, `inf`, `-inf` or `nan`.
Finite arithmetic is modelled exactly over `ℚ` (see the header note). -/
inductive PyFloat where
  | finite (q : ℚ)
  | inf
  | ninf
  | nan
deriving DecidableEq, Repr

namespace PyFloat

instance : Zero PyFloat := ⟨finite 0⟩

/-- Python `+` on floats: exact on finite values, IEEE rules on specials. -/
def add : PyFloat → PyFloat → PyFloat
  | nan, _ => nan
  | _, nan => nan
  | inf, ninf => nan
  | ninf, inf => nan
  | inf, _ => inf
  | _, inf => inf
  | ninf, _ => ninf
  | _, ninf => ninf
  | finite a, finite b => finite (a + b)

instance : Add PyFloat := ⟨add⟩

/-- Python binary `-` on floats. -/
def sub : PyFloat → PyFloat → PyFloat
  | nan, _ => nan
  | _, nan => nan
  | inf, inf => nan
  | ninf, ninf => nan
  | inf, _ => inf
  | _, inf => ninf
  | ninf, _ => ninf
  | _, ninf => inf
  | finite a, finite b => finite (a - b)

/-- Python `*` on floats, restricted to the sign cases the dashboard needs. -/
def mul : PyFloat → PyFloat → PyFloat
  | nan, _ => nan
  | _, nan => nan
  | finite a, finite b => finite (a * b)
  | inf, inf => inf
  | inf, ninf => ninf
  | ninf, inf => ninf
  | ninf, ninf => inf
  | inf, finite b => if b = 0 then nan else if 0 < b then inf else ninf
  | finite a, inf => if a = 0 then nan else if 0 < a then inf else ninf
  | ninf, finite b => if b = 0 then nan else if 0 < b then ninf else inf
  | finite a, ninf => if a = 0 then nan else if 0 < a then ninf else inf

/-- Python `/` on floats (the application only divides after checking the
divisor is `> 0`, so division by zero never arises in the theorems). -/
def div : PyFloat → PyFloat → PyFloat
  | nan, _ => nan
  | _, nan => nan
  | inf, inf => nan
  | inf, ninf => nan
  | ninf, inf => nan
  | ninf, ninf => nan
  | inf, finite b => if 0 ≤ b then inf else ninf
  | ninf, finite b => if 0 ≤ b then ninf else inf
  | finite _, inf => finite 0
  | finite _, ninf => finite 0
  | finite a, finite b => finite (a / b)

/-- Python `<=` on floats (`nan` compares false with everything). -/
def le : PyFloat → PyFloat → Bool
  | nan, _ => false
  | _, nan => false
  | ninf, _ => true
  | _, inf => true
  | inf, _ => false
  | _, ninf => false
  | finite a, finite b => a ≤ b

/-- Python `<` on floats. -/
def lt : PyFloat → PyFloat → Bool
  | nan, _ => false
  | _, nan => false
  | inf, _ => false
  | _, inf => true
  | ninf, ninf => false
  | ninf, _ => true
  | _, ninf => false
  | finite a, finite b => a < b

/-- Python `==` on floats (`nan` is not equal to anything, `0.0 == 0` holds). -/
def eq : PyFloat → PyFloat → Bool
  | finite a, finite b => a = b
  | inf, inf => true
  | ninf, ninf => true
  | _, _ => false

theorem add_comm' : ∀ a b : PyFloat, add a b = add b a := by
  intro a b; cases a <;> cases b <;> simp [add] <;> ring

theorem add_assoc' : ∀ a b c : PyFloat, add (add a b) c = add a (add b c) := by
  intro a b c; cases a <;> cases b <;> cases c <;> simp [add] <;> ring

theorem zero_add' : ∀ a : PyFloat, add 0 a = a := by
  intro a; cases a <;> simp [add, Zero.zero]

theorem add_zero' : ∀ a : PyFloat, add a 0 = a := by
  intro a; cases a <;> simp [add, Zero.zero]

instance : AddCommMonoid PyFloat where
  add_assoc := add_assoc'
  zero_add := zero_add'
  add_zero := add_zero'
  add_comm := add_comm'
  nsmul := nsmulRec

theorem add_def (a b : PyFloat) : a + b = add a b := rfl

end PyFloat

/-- Sum of a list of Python floats, as `pandas` `Series.sum` computes it
(the empty sum is `0`; the exact model makes summation order immaterial). -/
def pySum (l : List PyFloat) : PyFloat := l.sum

/-! ## Python `float()` string parsing

`float(s)` accepts an optionally signed decimal literal (with optional
fractional part, optional exponent, and underscores between digits) or the
keywords `inf`/`infinity`/`nan` (case-insensitive), surrounded by optional
whitespace.  Non-ASCII digit forms accepted by CPython are not modelled. -/

/-- Model of `str.strip()`: drop leading and trailing whitespace (char-list
implementation, so that concrete inputs evaluate inside the kernel). -/
def pyStrip (s : String) : String :=
  String.mk (((s.toList.dropWhile Char.isWhitespace).reverse.dropWhile
    Char.isWhitespace).reverse)

/-- Read a run of decimal digits, allowing a single `_` between digits
(CPython's underscore rule).  Returns the value, the number of digits read,
and the remaining characters.  The caller guarantees the first character is
a digit, so a leading underscore is never consumed here. -/
def grabDigitsAux : List Char → Nat → Nat → Nat × Nat × List Char
  | [], acc, n => (acc, n, [])
  | c :: cs, acc, n =>
    if c.isDigit then grabDigitsAux cs (10 * acc + (c.toNat - 48)) (n + 1)
    else if c = '_' then
      match cs with
      | c2 :: cs2 =>
        if c2.isDigit then grabDigitsAux cs2 (10 * acc + (c2.toNat - 48)) (n + 1)
        else (acc, n, c :: cs)
      | [] => (acc, n, c :: cs)
    else (acc, n, c :: cs)

/-- Read a digit run (with underscores) starting at a digit; reads nothing
when the first character is not a digit. -/
def grabDigits (l : List Char) : Nat × Nat × List Char :=
  match l with
  | c :: _ => if c.isDigit then grabDigitsAux l 0 0 else (0, 0, l)
  | [] => (0, 0, l)

/-- Parse the body of a float literal after the optional sign was removed. -/
def pyFloatVal (neg : Bool) (l : List Char) : Option PyFloat :=
  let lw := l.map Char.toLower
  if lw = "inf".toList ∨ lw = "infinity".toList then
    some (if neg then .ninf else .inf)
  else if lw = "nan".toList then some .nan
  else
    let p1 := grabDigits l
    let ip := p1.1
    let ni := p1.2.1
    let r1 := p1.2.2
    let p2 : Nat × Nat × List Char :=
      match r1 with
      | '.' :: rest => grabDigits rest
      | _ => (0, 0, r1)
    let fp := p2.1
    let nf := p2.2.1
    let r2 := p2.2.2
    let cont : Option (Int × List Char) :=
      match r2 with
      | 'e' :: rest => pyExponent rest
      | 'E' :: rest => pyExponent rest
      | _ => some (0, r2)
    match cont with
    | none => none
    | some (ex, rest) =>
      if ni + nf = 0 ∨ rest ≠ [] then none
      else
        let mag : ℚ :=
          mkRat (Int.ofNat ((ip * 10 ^ nf + fp) * 10 ^ ex.toNat))
            (10 ^ nf * 10 ^ (-ex).toNat)
        some (.finite (if neg then -mag else mag))
where
  /-- Parse an exponent part after the `e`: optional sign then digits. -/
  pyExponent (rest : List Char) : Option (Int × List Char) :=
    let sr : Int × List Char :=
      match rest with
      | '+' :: t => (1, t)
      | '-' :: t => (-1, t)
      | _ => (1, rest)
    let p := grabDigits sr.2
    if p.2.1 = 0 then none else some (sr.1 * (p.1 : Int), p.2.2)

/-- Python `float(s)`: strip whitespace, take the optional sign, parse. -/
def pyFloat? (s : String) : Option PyFloat :=
  let l := ((s.toList.dropWhile Char.isWhitespace).reverse.dropWhile
    Char.isWhitespace).reverse
  match l with
  | '+' :: rest => pyFloatVal false rest
  | '-' :: rest => pyFloatVal true rest
  | _ => pyFloatVal false l

/-! ## String helpers -/

/-- Model of `str.lower` (the application's data is ASCII, so ASCII lowering). -/
def asciiLower (s : String) : String := String.mk (s.toList.map Char.toLower)

/-- Character-level worker for `str.title`: uppercase a letter that follows
a non-letter, lowercase the others. -/
def titleChars : Bool → List Char → List Char
  | _, [] => []
  | prev, c :: cs =>
    if c.isAlpha then (if prev then c.toLower else c.toUpper) :: titleChars true cs
    else c :: titleChars false cs

/-- Python `str.title` (ASCII letters; the CSV headers and type values the
application handles are ASCII). -/
def pyTitle (s : String) : String := String.mk (titleChars false s.toList)

/-- Whitespace as matched by the regex class `\s` in Python `str` patterns
(the ASCII whitespace plus the common Unicode space characters). -/
def pyIsSpace (c : Char) : Bool :=
  c.isWhitespace || c = '\x0b' || c = '\x0c' ||
  c = '\x1c' || c = '\x1d' || c = '\x1e' || c = '\x1f' ||
  c = '\x85' || c = '\xa0' || c = ' ' || c = ' ' ||
  c = ' ' || c = ' ' || c = ' ' || c = ' ' ||
  c = ' ' || c = ' ' || c = ' ' || c = ' ' ||
  c = ' ' || c = ' ' || c = ' ' || c = ' ' ||
  c = ' ' || c = ' ' || c = '　'

/-- A character allowed by the category regex `^[A-Za-z0-9\s\-]+$`. -/
def categoryCharOk (c : Char) : Bool :=
  c.isAlpha || c.isDigit || pyIsSpace c || c = '-'

/-- Model of `re.match(r"^[A-Za-z0-9\s\-]+$", s)` succeeds: nonempty, all characters
in the class. -/
def categoryRegexOk (s : String) : Bool :=
  !s.toList.isEmpty && s.toList.all categoryCharOk

/-- Python `str.isdigit` (restricted to ASCII digits; the category check
runs after the regex check, which only admits ASCII digits anyway). -/
def pyIsDigitStr (s : String) : Bool :=
  !s.toList.isEmpty && s.toList.all Char.isDigit

/-- The amount cleaning shared by the add and edit paths:
`raw.replace("₱", "").replace(",", "").strip()` — replacing each of the two
single-character patterns by the empty string deletes every occurrence of
that character, so the two replacements together are one filter. -/
def cleanAmount (s : String) : String :=
  pyStrip (String.mk (s.toList.filter (fun c => !(c == '₱' || c == ','))))

/-! ## Dates

Stored dates use the format `strftime("%d %b %Y")`, e.g. `"05 Jan 2025"`:
both `add_entry` and `import_csv` write exactly this format.  `parseDate?`
models `pd.to_datetime(_, errors="coerce")` restricted to this storage
format (pandas accepts more formats, but only this one occurs in
application-written data); the `Timestamp` nanosecond range is approximated
by the years 1678–2261. -/

def monthNames : List String :=
  ["Jan", "Feb", "Mar", "Apr", "May", "Jun",
   "Jul", "Aug", "Sep", "Oct", "Nov", "Dec"]

def isLeap (y : Nat) : Bool := y % 4 = 0 && (y % 100 ≠ 0 || y % 400 = 0)

def daysInMonth (m y : Nat) : Nat :=
  if m = 2 then (if isLeap y then 29 else 28)
  else if m = 4 ∨ m = 6 ∨ m = 9 ∨ m = 11 then 30
  else 31

/-- Numeric value of a list of decimal digit characters. -/
def digitsVal (l : List Char) : Nat :=
  l.foldl (fun a c => 10 * a + (c.toNat - 48)) 0

def allDigitChars (l : List Char) : Bool := !l.isEmpty && l.all Char.isDigit

/-- The 1-based month number of an abbreviated month name (case-insensitive,
as pandas date parsing is). -/
def monthIndex? (s : String) : Option Nat :=
  (monthNames.findIdx? (fun m => asciiLower m == asciiLower s)).map (· + 1)

/-- Split a character list at every occurrence of a separator character
(`str.split(" ")` semantics: empty tokens are kept). -/
def splitChar (sep : Char) : List Char → List (List Char)
  | [] => [[]]
  | c :: cs =>
    if c = sep then [] :: splitChar sep cs
    else
      match splitChar sep cs with
      | t :: ts => (c :: t) :: ts
      | [] => [[c]]

/-- Parse a stored-format date `"dd Mon yyyy"` to `(day, month, year)`,
checking calendar validity (including leap years). -/
def parseDate? (s : String) : Option (Nat × Nat × Nat) :=
  match splitChar ' ' (pyStrip s).toList with
  | [dcs, mcs, ycs] =>
    if allDigitChars dcs && dcs.length ≤ 2 && allDigitChars ycs &&
        ycs.length = 4 then
      match monthIndex? (String.mk mcs) with
      | some m =>
        let d := digitsVal dcs
        let y := digitsVal ycs
        if 1 ≤ d ∧ d ≤ daysInMonth m y ∧ 1678 ≤ y ∧ y ≤ 2261 then
          some (d, m, y)
        else none
      | none => none
    else none
  | _ => none

def digitChar : Nat → Char
  | 0 => '0' | 1 => '1' | 2 => '2' | 3 => '3' | 4 => '4'
  | 5 => '5' | 6 => '6' | 7 => '7' | 8 => '8' | _ => '9'

/-- Decimal digits of `n`, least significant first (fuel-based structural
recursion: `n` itself always suffices as fuel). -/
def natToRevDigitsFuel : Nat → Nat → List Char
  | 0, _ => []
  | _ + 1, 0 => []
  | fuel + 1, n + 1 =>
    digitChar ((n + 1) % 10) :: natToRevDigitsFuel fuel ((n + 1) / 10)

def natToRevDigits (n : Nat) : List Char := natToRevDigitsFuel n n

/-- Decimal rendering of a natural number. -/
def natStr (n : Nat) : String :=
  if n = 0 then "0" else String.mk (natToRevDigits n).reverse

/-- Two-digit zero-padded rendering, as `strftime("%d")` produces. -/
def pad2 (n : Nat) : String := if n < 10 then "0" ++ natStr n else natStr n

/-- Model of `strftime("%d %b %Y")` on a date given as `(day, month, year)`. -/
def formatStoredDate (d m y : Nat) : String :=
  pad2 d ++ " " ++ monthNames.getD (m - 1) "" ++ " " ++ natStr y

/-! ## Data model -/

/-- One transaction row of the ledger (`Date,Type,Category,Amount,Notes`). -/
structure Row where
  date : String
  type : String
  category : String
  amount : PyFloat
  notes : String
deriving DecidableEq, Repr

/-- The application state: the in-memory `df` and the persisted CSV
(`transactions.csv`), the latter modelled by the row list it stores
(CSV cell round-trips are exact, see the header note). -/
structure AppState where
  ledger : List Row
  file : List Row
deriving DecidableEq, Repr

def COLUMNS : List String := ["Date", "Type", "Category", "Amount", "Notes"]

/-- A CSV file chosen for import: `none` when `pd.read_csv` fails to parse
it, otherwise its header names and its rows. -/
structure CsvData where
  header : List String
  rows : List Row
deriving DecidableEq, Repr

abbrev CsvFile := Option CsvData

/-- The modal error dialogs the operations can raise. -/
inductive OpError where
  | missingInfo
  | invalidType
  | amountNonNumeric
  | amountNonPositive
  | badCategoryChars
  | categoryAllDigits
  | importParseFailed
  | importMissingColumn (c : String)
deriving DecidableEq, Repr

/-! ## Operations -/

/-- Model of `add_entry`: validate the inputs and append a row dated `dateValue`
(the caller passes `datetime.now().strftime("%d %b %Y")`; ambient time is
an input of the model).  On a validation failure the state is unchanged and
the shown dialog is returned. -/
def addEntryRun (st : AppState)
    (dateValue typeRaw catRaw amountRaw notesRaw : String) :
    AppState × Option OpError :=
  let typeValue := pyStrip typeRaw
  let categoryValue := pyStrip catRaw
  let amountRawS := pyStrip amountRaw
  let notesValue := pyStrip notesRaw
  if typeValue = "" ∨ categoryValue = "" ∨ amountRawS = "" then
    (st, some .missingInfo)
  else if ¬ (typeValue = "Income" ∨ typeValue = "Expense") then
    (st, some .invalidType)
  else
    match pyFloat? (cleanAmount amountRawS) with
    | none => (st, some .amountNonNumeric)
    | some p =>
      if PyFloat.le p (.finite 0) then (st, some .amountNonPositive)
      else if ¬ categoryRegexOk categoryValue then
        (st, some .badCategoryChars)
      else if pyIsDigitStr categoryValue then (st, some .categoryAllDigits)
      else
        let row : Row :=
          ⟨dateValue, typeValue, categoryValue, p, notesValue⟩
        let newLedger := st.ledger ++ [row]
        (⟨newLedger, newLedger⟩, none)

/-- Model of `save_changes` (the edit popup): validate the amount only, then update
the selected row in place and persist.  The index always comes from a
selected row; an out-of-range index is modelled as a no-op. -/
def saveChangesRun (st : AppState) (idx : Nat)
    (typeNew catNew amountRaw notesNew : String) : AppState × Option OpError :=
  match pyFloat? (cleanAmount amountRaw) with
  | none => (st, some .amountNonNumeric)
  | some p =>
    if PyFloat.le p (.finite 0) then (st, some .amountNonPositive)
    else
      match st.ledger[idx]? with
      | none => (st, none)
      | some old =>
        let row : Row :=
          { old with type := typeNew, category := catNew,
                     amount := p, notes := notesNew }
        let newLedger := st.ledger.set idx row
        (⟨newLedger, newLedger⟩, none)

/-- Model of `delete_entry` (the confirmed path): drop the row and re-number. -/
def deleteEntryRun (st : AppState) (idx : Nat) : AppState :=
  let newLedger := st.ledger.eraseIdx idx
  ⟨newLedger, newLedger⟩

/-- Model of `export_csv`: write the ledger to the chosen path. -/
def exportFile (st : AppState) : CsvFile := some ⟨COLUMNS, st.ledger⟩

/-- Model of `import_csv`: check the five required columns on the strip-and-title
normalised header, coerce amounts (identity on the typed cells, see the
header note), title-case the type, keep only `Income`/`Expense` rows,
re-format parseable dates and drop the rest, then append everything to the
ledger and persist.  Failures abort with the state unchanged. -/
def importCsvRun (st : AppState) (f : CsvFile) : AppState × Option OpError :=
  match f with
  | none => (st, some .importParseFailed)
  | some data =>
    let hdr := data.header.map (fun h => pyTitle (pyStrip h))
    match COLUMNS.find? (fun c => !(hdr.contains c)) with
    | some c => (st, some (.importMissingColumn c))
    | none =>
      let rows2 := data.rows.map (fun r => { r with type := pyTitle r.type })
      let rows3 := rows2.filter
        (fun r => r.type == "Income" || r.type == "Expense")
      let rows4 := rows3.filterMap (fun r =>
        (parseDate? r.date).map
          (fun t => { r with date := formatStoredDate t.1 t.2.1 t.2.2 }))
      let newLedger := st.ledger ++ rows4
      (⟨newLedger, newLedger⟩, none)

/-- Reloading the ledger from the persisted CSV (`pd.read_csv` at startup;
the `astype(float)` coercion is the identity on the typed cells). -/
def reloadLedger (st : AppState) : List Row := st.file

/-! ## Filter and sort -/

/-- Does the pattern match a prefix of the text?  The engine models the
regex fragment of literal characters and the `.` wildcard, on which it
agrees with Python `re`; the theorems only apply it inside this fragment. -/
def reMatchHere : List Char → List Char → Bool
  | [], _ => true
  | _ :: _, [] => false
  | p :: ps, c :: cs => (p == '.' || p == c) && reMatchHere ps cs

/-- Model of `re.search`: does the pattern match at some position of the text? -/
def reSearch (pat : List Char) : List Char → Bool
  | [] => reMatchHere pat []
  | c :: cs => reMatchHere pat (c :: cs) || reSearch pat cs

/-- Model of `Series.str.contains(pat)` with pandas' default `regex=True`:
`re.search` of the pattern anywhere in the string. -/
def strContainsRe (pat s : String) : Bool := reSearch pat.toList s.toList

/-- The row predicate of `filter_sort`: the lowered search text occurs (as
a regex) in the lowered type, category or notes. -/
def rowMatches (search : String) (r : Row) : Bool :=
  strContainsRe search (asciiLower r.type) ||
  strContainsRe search (asciiLower r.category) ||
  strContainsRe search (asciiLower r.notes)

/-- The two values of the sort dropdown (`sort_var` is a read-only combobox
initialised to `Ascending`, so it always holds one of the two). -/
inductive SortOrder where
  | asc
  | desc
deriving DecidableEq, Repr

/-- Lexicographic (code-unit) comparison of character lists: how pandas
`sort_values` compares the stored date *strings*. -/
def charListLe : List Char → List Char → Bool
  | [], _ => true
  | _ :: _, [] => false
  | a :: as, b :: bs =>
    if a.toNat < b.toNat then true
    else if b.toNat < a.toNat then false
    else charListLe as bs

def dateStrLe (a b : String) : Bool := charListLe a.toList b.toList

/-- The comparison `filter_sort` sorts displayed rows by. -/
def rowLe (order : SortOrder) (r1 r2 : Row) : Bool :=
  match order with
  | .asc => dateStrLe r1.date r2.date
  | .desc => dateStrLe r2.date r1.date

/-- Model of `filter_sort`: filter by the stripped, lowered search text (skipped when
it is empty), then sort by the `Date` column.  The source sorts with
pandas' default quicksort, whose tie order it does not document; the model
fixes the deterministic stable order of `mergeSort` (no claim constrains
tie order). -/
def filterSortRows (rows : List Row) (searchRaw : String)
    (order : SortOrder) : List Row :=
  let search := asciiLower (pyStrip searchRaw)
  let filtered := if search = "" then rows else rows.filter (rowMatches search)
  filtered.mergeSort (rowLe order)

/-! ## Dashboard aggregation (`update_dashboard`) -/

/-- The month dropdown: `none` is "All Months", `some m` a calendar month
(1–12). -/
abbrev MonthSel := Option Nat

/-- The month restriction: keep rows whose date parses and has the selected
month (`pd.to_datetime(..., errors="coerce").dt.month == month_num`; rows
with unparseable dates get `NaT` and compare false). -/
def monthFiltered (rows : List Row) : MonthSel → List Row
  | none => rows
  | some m => rows.filter (fun r => (parseDate? r.date).map (·.2.1) == some m)

def expensesOf (rows : List Row) : List Row :=
  rows.filter (fun r => asciiLower r.type == "expense")

def incomesOf (rows : List Row) : List Row :=
  rows.filter (fun r => asciiLower r.type == "income")

/-- Model of `expenses["Amount"].sum() if not expenses.empty else 0` (the empty sum
is `0` either way). -/
def totalExpensesOf (rows : List Row) : PyFloat :=
  pySum ((expensesOf rows).map (·.amount))

def totalIncomeOf (rows : List Row) : PyFloat :=
  pySum ((incomesOf rows).map (·.amount))

/-- The distinct categories of a row list.  pandas `groupby` sorts the
group keys; the key order is immaterial to every statement below, so the
model keeps `dedup` order. -/
def categoriesOf (rows : List Row) : List String := (rows.map (·.category)).dedup

/-- Model of `expenses.groupby("Category")["Amount"].sum()` as an association list. -/
def catTotalsOf (rows : List Row) : List (String × PyFloat) :=
  (categoriesOf rows).map (fun c =>
    (c, pySum ((rows.filter (fun r => r.category == c)).map (·.amount))))

/-- Model of `cat_totals[cat_totals > 0]`: the per-category totals the pie chart is
drawn from. -/
def pieTotalsOf (rows : List Row) : List (String × PyFloat) :=
  (catTotalsOf rows).filter (fun p => PyFloat.lt (.finite 0) p.2)

/-- Total expenses of the dashboard's month selection. -/
def totalExpenses (l : List Row) (sel : MonthSel) : PyFloat :=
  totalExpensesOf (monthFiltered l sel)

/-- Total income of the dashboard's month selection. -/
def totalIncome (l : List Row) (sel : MonthSel) : PyFloat :=
  totalIncomeOf (monthFiltered l sel)

/-- Model of `remaining = total_income - total_expenses`. -/
def remainingOf (l : List Row) (sel : MonthSel) : PyFloat :=
  PyFloat.sub (totalIncome l sel) (totalExpenses l sel)

/-- Model of `percentage = (total_expenses / total_income * 100) if total_income > 0
else 0`. -/
def percentageUsed (l : List Row) (sel : MonthSel) : PyFloat :=
  if PyFloat.lt (.finite 0) (totalIncome l sel) then
    PyFloat.mul (PyFloat.div (totalExpenses l sel) (totalIncome l sel))
      (.finite 100)
  else .finite 0

/-- The three display states of the budget percentage label. -/
inductive BudgetDisplay where
  | noIncomeData
  | overBudget (p : PyFloat)
  | percentOfIncome (p : PyFloat)
deriving DecidableEq, Repr

/-- The `budget_percent_label` branch of `update_dashboard`. -/
def budgetDisplay (l : List Row) (sel : MonthSel) : BudgetDisplay :=
  if PyFloat.eq (totalIncome l sel) (.finite 0) then .noIncomeData
  else if PyFloat.lt (remainingOf l sel) (.finite 0) then
    .overBudget (percentageUsed l sel)
  else .percentOfIncome (percentageUsed l sel)

/-! ## Operation sequences -/

/-- A user-level mutation of the ledger. -/
inductive Op where
  | add (dateValue typeRaw catRaw amountRaw notesRaw : String)
  | edit (idx : Nat) (typeNew catNew amountRaw notesNew : String)
  | delete (idx : Nat)
  | importFile (f : CsvFile)

/-- The state after one operation (rejected operations leave it as is). -/
def applyOp (st : AppState) : Op → AppState
  | .add d t c a n => (addEntryRun st d t c a n).1
  | .edit i t c a n => (saveChangesRun st i t c a n).1
  | .delete i => deleteEntryRun st i
  | .importFile f => (importCsvRun st f).1

def applyOps (st : AppState) (ops : List Op) : AppState :=
  ops.foldl applyOp st

/-! ## Auxiliary lemmas -/

theorem PyFloat.mul_comm' : ∀ a b : PyFloat, PyFloat.mul a b = PyFloat.mul b a := by
  intro a b
  cases a <;> cases b <;> simp [PyFloat.mul, mul_comm]

/-! ## Claims -/

/-- C2: For every ledger state and month selection, if total income for the
selection is greater than 0 then the dashboard's percentage-used value
equals 100 × total expenses / total income; if total income equals 0 then
the "no income data" display state is shown instead of a percentage. -/
theorem C2_percentage_formula_and_no_income_state (l : List Row) (sel : MonthSel) :
    (PyFloat.lt (.finite 0) (totalIncome l sel) = true →
      percentageUsed l sel =
        PyFloat.mul (.finite 100)
          (PyFloat.div (totalExpenses l sel) (totalIncome l sel))) ∧
    (PyFloat.eq (totalIncome l sel) (.finite 0) = true →
      budgetDisplay l sel = .noIncomeData) := by
  constructor
  · intro h
    unfold percentageUsed
    rw [if_pos h, PyFloat.mul_comm']
  · intro h
    unfold budgetDisplay
    rw [if_pos h]

/-- Witness for C2: a ledger with income 200 and expenses 50 (25% used),
and the empty ledger for the zero-income display state. -/
theorem C2_percentage_formula_and_no_income_state_witness :
    (PyFloat.lt (.finite 0)
        (totalIncome [⟨"05 Jan 2025", "Income", "Salary", .finite 200, ""⟩,
          ⟨"05 Jan 2025", "Expense", "Food", .finite 50, ""⟩] none) = true ∧
      percentageUsed [⟨"05 Jan 2025", "Income", "Salary", .finite 200, ""⟩,
          ⟨"05 Jan 2025", "Expense", "Food", .finite 50, ""⟩] none =
        PyFloat.mul (.finite 100)
          (PyFloat.div
            (totalExpenses [⟨"05 Jan 2025", "Income", "Salary", .finite 200, ""⟩,
              ⟨"05 Jan 2025", "Expense", "Food", .finite 50, ""⟩] none)
            (totalIncome [⟨"05 Jan 2025", "Income", "Salary", .finite 200, ""⟩,
              ⟨"05 Jan 2025", "Expense", "Food", .finite 50, ""⟩] none))) ∧
    (PyFloat.eq (totalIncome [] none) (.finite 0) = true ∧
      budgetDisplay [] none = .noIncomeData) := by
  have h1 : PyFloat.lt (.finite 0)
      (totalIncome [⟨"05 Jan 2025", "Income", "Salary", .finite 200, ""⟩,
        ⟨"05 Jan 2025", "Expense", "Food", .finite 50, ""⟩] none) = true := by
    simp [totalIncome, totalIncomeOf, incomesOf, monthFiltered, pySum,
      asciiLower, PyFloat.add_def, PyFloat.add, PyFloat.lt]
  have h2 : PyFloat.eq (totalIncome [] none) (.finite 0) = true := by
    simp [totalIncome, totalIncomeOf, incomesOf, monthFiltered, pySum,
      PyFloat.eq]
  exact ⟨⟨h1, (C2_percentage_formula_and_no_income_state _ none).1 h1⟩,
    ⟨h2, (C2_percentage_formula_and_no_income_state _ none).2 h2⟩⟩

/-- The claim's rejection condition on an amount string, applied to what a
path actually parses: `float()` fails on the cleaned string (non-numeric),
or the parsed value is `≤ 0`. -/
def amountBad (cleaned : String) : Bool :=
  match pyFloat? cleaned with
  | none => true
  | some p => PyFloat.le p (.finite 0)

/-- C3: For every amount input string, both the add path and the edit path
reject the entry (show an error and leave the ledger unchanged) whenever
the string is non-numeric or its numeric value is ≤ 0.  The add path reads
the widget text through `strip()` before cleaning, the edit path cleans the
raw text, so the condition is taken on each path's cleaned string. -/
theorem C3_amount_validation_rejects (s : String)
    (hAdd : amountBad (cleanAmount (pyStrip s)) = true)
    (hEdit : amountBad (cleanAmount s) = true) :
    (∀ st d t c n, ∃ e, addEntryRun st d t c s n = (st, some e)) ∧
    (∀ st i t c n, ∃ e, saveChangesRun st i t c s n = (st, some e)) := by
  unfold amountBad at hAdd hEdit
  constructor
  · intro st d t c n
    unfold addEntryRun
    dsimp only
    split
    · exact ⟨_, rfl⟩
    split
    · exact ⟨_, rfl⟩
    split
    · exact ⟨_, rfl⟩
    next p hp =>
      rw [hp] at hAdd
      rw [if_pos hAdd]
      exact ⟨_, rfl⟩
  · intro st i t c n
    unfold saveChangesRun
    dsimp only
    split
    · exact ⟨_, rfl⟩
    next p hp =>
      rw [hp] at hEdit
      rw [if_pos hEdit]
      exact ⟨_, rfl⟩

/-- Witness for C3 at the amount string `"-5"`. -/
theorem C3_amount_validation_rejects_witness :
    (amountBad (cleanAmount (pyStrip "-5")) = true ∧
      amountBad (cleanAmount "-5") = true) ∧
    (∃ e, addEntryRun ⟨[], []⟩ "05 Jan 2025" "Income" "Food" "-5" "" =
      (⟨[], []⟩, some e)) ∧
    (∃ e, saveChangesRun ⟨[], []⟩ 0 "Income" "Food" "-5" "" =
      (⟨[], []⟩, some e)) := by
  have h1 : amountBad (cleanAmount (pyStrip "-5")) = true := by decide
  have h2 : amountBad (cleanAmount "-5") = true := by decide
  obtain ⟨ha, he⟩ := C3_amount_validation_rejects "-5" h1 h2
  exact ⟨⟨h1, h2⟩, ha ⟨[], []⟩ "05 Jan 2025" "Income" "Food" "",
    he ⟨[], []⟩ 0 "Income" "Food" ""⟩

/-- C6: Whenever an import fails — the chosen CSV is missing one of the
five required columns (after strip-and-title normalisation), or the file is
unparseable — the entire import is aborted with an error dialog and the
ledger (in-memory collection and its persisted CSV) is left unchanged. -/
theorem C6_import_failure_aborts_unchanged (st : AppState) (f : CsvFile)
    (h : f = none ∨ ∃ d, f = some d ∧ ∃ c ∈ COLUMNS,
      (d.header.map (fun s => pyTitle (pyStrip s))).contains c = false) :
    (importCsvRun st f).1 = st ∧ (importCsvRun st f).2.isSome = true := by
  rcases h with rfl | ⟨d, rfl, c, hc, hmem⟩
  · exact ⟨rfl, rfl⟩
  · have hfind : (COLUMNS.find? (fun c =>
        !((d.header.map (fun s => pyTitle (pyStrip s))).contains c))).isSome := by
      rw [List.find?_isSome]
      exact ⟨c, hc, by rw [hmem]; rfl⟩
    unfold importCsvRun
    dsimp only
    split
    · exact ⟨rfl, rfl⟩
    next hnone =>
      rw [hnone] at hfind
      simp at hfind

/-- Witness for C6: a file whose header lacks the `Amount` column, imported
into a one-row state. -/
theorem C6_import_failure_aborts_unchanged_witness :
    ((some ⟨["Date", "Type", "Category", "Notes"], []⟩ : CsvFile) = none ∨
      ∃ d, (some ⟨["Date", "Type", "Category", "Notes"], []⟩ : CsvFile) =
          some d ∧ ∃ c ∈ COLUMNS,
        (d.header.map (fun s => pyTitle (pyStrip s))).contains c = false) ∧
    (importCsvRun ⟨[⟨"05 Jan 2025", "Income", "Salary", .finite 200, ""⟩],
        [⟨"05 Jan 2025", "Income", "Salary", .finite 200, ""⟩]⟩
      (some ⟨["Date", "Type", "Category", "Notes"], []⟩)).1 =
      ⟨[⟨"05 Jan 2025", "Income", "Salary", .finite 200, ""⟩],
        [⟨"05 Jan 2025", "Income", "Salary", .finite 200, ""⟩]⟩ ∧
    (importCsvRun ⟨[⟨"05 Jan 2025", "Income", "Salary", .finite 200, ""⟩],
        [⟨"05 Jan 2025", "Income", "Salary", .finite 200, ""⟩]⟩
      (some ⟨["Date", "Type", "Category", "Notes"], []⟩)).2.isSome = true := by
  have h : (some ⟨["Date", "Type", "Category", "Notes"], []⟩ : CsvFile) = none ∨
      ∃ d, (some ⟨["Date", "Type", "Category", "Notes"], []⟩ : CsvFile) =
          some d ∧ ∃ c ∈ COLUMNS,
        (d.header.map (fun s => pyTitle (pyStrip s))).contains c = false :=
    Or.inr ⟨_, rfl, "Amount", by decide, by decide⟩
  obtain ⟨h1, h2⟩ := C6_import_failure_aborts_unchanged
    ⟨[⟨"05 Jan 2025", "Income", "Salary", .finite 200, ""⟩],
      [⟨"05 Jan 2025", "Income", "Salary", .finite 200, ""⟩]⟩
    (some ⟨["Date", "Type", "Category", "Notes"], []⟩) h
  exact ⟨h, h1, h2⟩

/-- C9: For every valid input (type, category, amount, notes), performing
add and then reloading the ledger from the CSV file yields a ledger
containing the new row, with its fields equal to the validated, normalized
inputs: whitespace-trimmed fields, amount parsed after stripping the
currency glyph and thousands separators, date set to today. -/
theorem C9_add_then_reload_contains_row (st : AppState)
    (today t c a n : String) (p : PyFloat)
    (ht : pyStrip t = "Income" ∨ pyStrip t = "Expense")
    (ha : pyStrip a ≠ "")
    (hp : pyFloat? (cleanAmount (pyStrip a)) = some p)
    (hpos : PyFloat.le p (.finite 0) = false)
    (hc1 : categoryRegexOk (pyStrip c) = true)
    (hc2 : pyIsDigitStr (pyStrip c) = false) :
    addEntryRun st today t c a n =
      (⟨st.ledger ++ [⟨today, pyStrip t, pyStrip c, p, pyStrip n⟩],
        st.ledger ++ [⟨today, pyStrip t, pyStrip c, p, pyStrip n⟩]⟩, none) ∧
    reloadLedger (addEntryRun st today t c a n).1 =
      st.ledger ++ [⟨today, pyStrip t, pyStrip c, p, pyStrip n⟩] := by
  have htne : pyStrip t ≠ "" := by
    rcases ht with h | h <;> rw [h] <;> decide
  have hcne : pyStrip c ≠ "" := by
    intro h
    rw [h] at hc1
    exact absurd hc1 (by decide)
  have heq : addEntryRun st today t c a n =
      (⟨st.ledger ++ [⟨today, pyStrip t, pyStrip c, p, pyStrip n⟩],
        st.ledger ++ [⟨today, pyStrip t, pyStrip c, p, pyStrip n⟩]⟩, none) := by
    unfold addEntryRun
    dsimp only
    rw [if_neg (by simp [htne, hcne, ha]), if_neg (not_not_intro ht), hp]
    simp [hpos, hc1, hc2]
  exact ⟨heq, by rw [heq]; rfl⟩

/-- Witness for C9: adding `" Income "`, `"Food"`, `"₱1,500.50"`, `" x "`
on an empty state. -/
theorem C9_add_then_reload_contains_row_witness :
    ((pyStrip " Income " = "Income" ∨ pyStrip " Income " = "Expense") ∧
      pyStrip "₱1,500.50" ≠ "" ∧
      pyFloat? (cleanAmount (pyStrip "₱1,500.50")) =
        some (.finite (mkRat 3001 2)) ∧
      PyFloat.le (.finite (mkRat 3001 2)) (.finite 0) = false ∧
      categoryRegexOk (pyStrip "Food") = true ∧
      pyIsDigitStr (pyStrip "Food") = false) ∧
    reloadLedger (addEntryRun ⟨[], []⟩ "05 Jan 2025" " Income " "Food"
        "₱1,500.50" " x ").1 =
      [] ++ [⟨"05 Jan 2025", pyStrip " Income ", pyStrip "Food",
        .finite (mkRat 3001 2), pyStrip " x "⟩] := by
  refine ⟨⟨by decide, by decide, by decide, by decide, by decide, by decide⟩, ?_⟩
  exact (C9_add_then_reload_contains_row ⟨[], []⟩ "05 Jan 2025" " Income "
    "Food" "₱1,500.50" " x " (.finite (mkRat 3001 2)) (by decide) (by decide)
    (by decide) (by decide) (by decide) (by decide)).2

theorem charListLe_trans (a : List Char) : ∀ b c : List Char,
    charListLe a b = true → charListLe b c = true → charListLe a c = true := by
  induction a with
  | nil => intro b c _ _; rfl
  | cons x xs ih =>
    intro b c hab hbc
    cases b with
    | nil => exact absurd hab (by simp [charListLe])
    | cons y ys =>
      cases c with
      | nil => exact absurd hbc (by simp [charListLe])
      | cons z zs =>
        by_cases h1 : x.toNat < y.toNat
        · by_cases h2 : y.toNat < z.toNat
          · have h3 : x.toNat < z.toNat := lt_trans h1 h2
            simp only [charListLe]
            rw [if_pos h3]
          · by_cases h3 : z.toNat < y.toNat
            · simp only [charListLe] at hbc
              rw [if_neg h2, if_pos h3] at hbc
              exact absurd hbc (by simp)
            · have h4 : x.toNat < z.toNat := by omega
              simp only [charListLe]
              rw [if_pos h4]
        · by_cases h4 : y.toNat < x.toNat
          · simp only [charListLe] at hab
            rw [if_neg h1, if_pos h4] at hab
            exact absurd hab (by simp)
          · simp only [charListLe] at hab
            rw [if_neg h1, if_neg h4] at hab
            by_cases h2 : y.toNat < z.toNat
            · have h5 : x.toNat < z.toNat := by omega
              simp only [charListLe]
              rw [if_pos h5]
            · by_cases h3 : z.toNat < y.toNat
              · simp only [charListLe] at hbc
                rw [if_neg h2, if_pos h3] at hbc
                exact absurd hbc (by simp)
              · simp only [charListLe] at hbc
                rw [if_neg h2, if_neg h3] at hbc
                have h6 : ¬ x.toNat < z.toNat := by omega
                have h7 : ¬ z.toNat < x.toNat := by omega
                simp only [charListLe]
                rw [if_neg h6, if_neg h7]
                exact ih ys zs hab hbc

theorem charListLe_total (a : List Char) : ∀ b : List Char,
    charListLe a b = true ∨ charListLe b a = true := by
  induction a with
  | nil => intro b; left; rfl
  | cons x xs ih =>
    intro b
    cases b with
    | nil => right; rfl
    | cons y ys =>
      by_cases h1 : x.toNat < y.toNat
      · left
        simp only [charListLe]
        rw [if_pos h1]
      · by_cases h2 : y.toNat < x.toNat
        · right
          simp only [charListLe]
          rw [if_pos h2]
        · rcases ih ys with h | h
          · left
            simp only [charListLe]
            rw [if_neg h1, if_neg h2]
            exact h
          · right
            simp only [charListLe]
            rw [if_neg h2, if_neg h1]
            exact h

theorem rowLe_trans (o : SortOrder) : ∀ a b c : Row,
    rowLe o a b → rowLe o b c → rowLe o a c := by
  intro a b c hab hbc
  cases o with
  | asc => exact charListLe_trans _ _ _ hab hbc
  | desc => exact charListLe_trans _ _ _ hbc hab

theorem rowLe_total (o : SortOrder) : ∀ a b : Row,
    rowLe o a b || rowLe o b a := by
  intro a b
  cases o with
  | asc =>
    show (charListLe a.date.toList b.date.toList ||
      charListLe b.date.toList a.date.toList) = true
    rcases charListLe_total a.date.toList b.date.toList with h | h
    · rw [h]; rfl
    · rw [h, Bool.or_true]
  | desc =>
    show (charListLe b.date.toList a.date.toList ||
      charListLe a.date.toList b.date.toList) = true
    rcases charListLe_total b.date.toList a.date.toList with h | h
    · rw [h]; rfl
    · rw [h, Bool.or_true]

/-- C10: For every ledger state, search text and sort order, applying
filter-and-sort twice in succession with the same search text and order
produces the same displayed rows as applying it once.  (`filter_sort` never
mutates the ledger, so this also proves the reapplication reading: the
displayed rows are a function of the unchanged ledger and the controls.) -/
theorem C10_filter_sort_idempotent (rows : List Row) (s : String)
    (o : SortOrder) :
    filterSortRows (filterSortRows rows s o) s o = filterSortRows rows s o := by
  unfold filterSortRows
  dsimp only
  by_cases hs : asciiLower (pyStrip s) = ""
  · rw [if_pos hs, if_pos hs]
    exact List.mergeSort_of_sorted
      (List.sorted_mergeSort (rowLe_trans o) (rowLe_total o) _)
  · rw [if_neg hs, if_neg hs]
    have hall : ∀ r ∈ List.mergeSort
        (rows.filter (rowMatches (asciiLower (pyStrip s)))) (rowLe o),
        rowMatches (asciiLower (pyStrip s)) r = true := by
      intro r hr
      rw [List.mem_mergeSort] at hr
      exact List.of_mem_filter hr
    rw [List.filter_eq_self.mpr hall]
    exact List.mergeSort_of_sorted
      (List.sorted_mergeSort (rowLe_trans o) (rowLe_total o) _)

/-- Does the pattern occur verbatim as a prefix of the text?  (Claim-side
notion, used to compare the code's regex search with plain substring
containment.) -/
def prefixB : List Char → List Char → Bool
  | [], _ => true
  | _ :: _, [] => false
  | a :: as, b :: bs => a == b && prefixB as bs

/-- Does the pattern occur verbatim as a substring of the text? -/
def substrB (pat : List Char) : List Char → Bool
  | [] => prefixB pat []
  | c :: cs => prefixB pat (c :: cs) || substrB pat cs

/-- A Python regular-expression metacharacter. -/
def regexMeta (c : Char) : Bool :=
  c == '.' || c == '^' || c == '$' || c == '*' || c == '+' || c == '?' ||
  c == '\x7b' || c == '\x7d' || c == '[' || c == ']' || c == '\\' ||
  c == '|' || c == '(' || c == ')'

/-- The claim's filter predicate: the search text occurs verbatim as a
substring of the lowered type, category or notes. -/
def substrMatchRow (search : String) (r : Row) : Bool :=
  substrB search.toList (asciiLower r.type).toList ||
  substrB search.toList (asciiLower r.category).toList ||
  substrB search.toList (asciiLower r.notes).toList

theorem reMatchHere_eq_prefixB (p : List Char)
    (hp : p.all (fun c => !regexMeta c) = true) :
    ∀ s, reMatchHere p s = prefixB p s := by
  induction p with
  | nil => intro s; rfl
  | cons c cs ih =>
    intro s
    rw [List.all_cons, Bool.and_eq_true] at hp
    have hdot : (c == '.') = false := by
      rcases Bool.eq_false_or_eq_true (c == '.') with h | h
      · exfalso
        rw [eq_of_beq h] at hp
        exact absurd hp.1 (by decide)
      · exact h
    cases s with
    | nil => rfl
    | cons d ds =>
      simp only [reMatchHere, prefixB, hdot, Bool.false_or]
      rw [ih hp.2]

theorem reSearch_eq_substrB (p : List Char)
    (hp : p.all (fun c => !regexMeta c) = true) :
    ∀ s, reSearch p s = substrB p s := by
  intro s
  induction s with
  | nil => simp only [reSearch, substrB, reMatchHere_eq_prefixB p hp]
  | cons c cs ih =>
    simp only [reSearch, substrB, reMatchHere_eq_prefixB p hp, ih]

theorem substrB_nil : ∀ t : List Char, substrB [] t = true := by
  intro t
  cases t <;> rfl

/-- C8 counterexample: with search text `"."`, the code's filter (pandas
`str.contains`, which treats the text as a regular expression) displays a
row none of whose fields contains `"."` as a substring, so filter-and-sort
does not display "exactly the rows whose Type, Category, or Notes contains
the search text as a case-insensitive substring". -/
theorem C8_counterexample :
    filterSortRows [⟨"05 Jan 2025", "Expense", "Food", .finite 5, "abc"⟩]
        "." .asc =
      [⟨"05 Jan 2025", "Expense", "Food", .finite 5, "abc"⟩] ∧
    substrMatchRow (asciiLower (pyStrip "."))
      ⟨"05 Jan 2025", "Expense", "Food", .finite 5, "abc"⟩ = false := by
  constructor
  · simp [filterSortRows, pyStrip, asciiLower, rowMatches, strContainsRe,
      reSearch, reMatchHere, List.mergeSort]
  · decide

/-- C8 (amended): for every ledger state, search text without regular-
expression metacharacters, and chosen order, filter-and-sort displays
exactly the rows whose Type, Category, or Notes contains the search text as
a case-insensitive substring (as a permutation — pandas does not document
the order of ties), and those rows appear in ascending or descending
*lexicographic* order of their stored date string (pandas sorts the `Date`
column as strings, not chronologically).  For search texts with
metacharacters the filter is regular-expression search instead. -/
theorem C8_filter_sort_characterization (rows : List Row) (s : String)
    (o : SortOrder)
    (hlit : (asciiLower (pyStrip s)).toList.all (fun c => !regexMeta c) = true) :
    (filterSortRows rows s o).Perm
        (rows.filter (substrMatchRow (asciiLower (pyStrip s)))) ∧
    (filterSortRows rows s o).Pairwise (fun r1 r2 => rowLe o r1 r2 = true) := by
  have hfilter : (if asciiLower (pyStrip s) = "" then rows
      else rows.filter (rowMatches (asciiLower (pyStrip s)))) =
      rows.filter (substrMatchRow (asciiLower (pyStrip s))) := by
    by_cases hs : asciiLower (pyStrip s) = ""
    · rw [if_pos hs, hs]
      symm
      apply List.filter_eq_self.mpr
      intro r _
      simp [substrMatchRow, substrB_nil]
    · rw [if_neg hs]
      apply List.filter_congr
      intro r _
      unfold rowMatches substrMatchRow strContainsRe
      rw [reSearch_eq_substrB _ hlit, reSearch_eq_substrB _ hlit,
        reSearch_eq_substrB _ hlit]
  constructor
  · unfold filterSortRows
    dsimp only
    rw [hfilter]
    exact List.mergeSort_perm _ _
  · unfold filterSortRows
    dsimp only
    exact List.sorted_mergeSort (rowLe_trans o) (rowLe_total o) _

/-- Witness for C8 (amended) at search text `"food"` on a one-row ledger. -/
theorem C8_filter_sort_characterization_witness :
    ((asciiLower (pyStrip "food")).toList.all (fun c => !regexMeta c) = true) ∧
    (filterSortRows [⟨"05 Jan 2025", "Expense", "Food", .finite 5, ""⟩]
        "food" .asc).Perm
      ([⟨"05 Jan 2025", "Expense", "Food", .finite 5, ""⟩].filter
        (substrMatchRow (asciiLower (pyStrip "food")))) ∧
    (filterSortRows [⟨"05 Jan 2025", "Expense", "Food", .finite 5, ""⟩]
        "food" .asc).Pairwise (fun r1 r2 => rowLe .asc r1 r2 = true) := by
  have h : (asciiLower (pyStrip "food")).toList.all
      (fun c => !regexMeta c) = true := by decide
  obtain ⟨h1, h2⟩ := C8_filter_sort_characterization
    [⟨"05 Jan 2025", "Expense", "Food", .finite 5, ""⟩] "food" .asc h
  exact ⟨h, h1, h2⟩

theorem sum_map_ite_add (a : PyFloat) (f : String → PyFloat) :
    ∀ (cs : List String) (x : String), cs.Nodup → x ∈ cs →
      (cs.map (fun c => if x == c then a + f c else f c)).sum
        = a + (cs.map f).sum := by
  intro cs
  induction cs with
  | nil => intro x _ hx; cases hx
  | cons c cs ih =>
    intro x hnd hx
    rw [List.map_cons, List.sum_cons, List.map_cons, List.sum_cons]
    rcases List.mem_cons.mp hx with rfl | hmem
    · rw [if_pos (beq_self_eq_true x)]
      have hnotin : x ∉ cs := (List.nodup_cons.mp hnd).1
      have hmap : cs.map (fun c' => if x == c' then a + f c' else f c')
          = cs.map f := by
        apply List.map_congr_left
        intro c' hc'
        have : (x == c') = false := by
          refine beq_eq_false_iff_ne.mpr ?_
          intro hxc
          exact hnotin (hxc ▸ hc')
        rw [this]
        rfl
      rw [hmap, add_assoc]
    · have hxc : (x == c) = false := by
        refine beq_eq_false_iff_ne.mpr ?_
        intro hxc
        exact (List.nodup_cons.mp hnd).1 (hxc ▸ hmem)
      rw [hxc]
      show f c + (cs.map (fun c' => if x == c' then a + f c' else f c')).sum
        = a + (f c + (cs.map f).sum)
      rw [ih x (List.nodup_cons.mp hnd).2 hmem, add_left_comm]

theorem sum_fibers (l : List Row) :
    ∀ cs : List String, cs.Nodup → (∀ r ∈ l, r.category ∈ cs) →
      (cs.map (fun c =>
        ((l.filter (fun r => r.category == c)).map (·.amount)).sum)).sum
        = (l.map (·.amount)).sum := by
  induction l with
  | nil => intro cs _ _; simp
  | cons r l ih =>
    intro cs hnd hcov
    have hstep : ∀ c : String,
        (((r :: l).filter (fun r' => r'.category == c)).map (·.amount)).sum
        = if r.category == c then
            r.amount +
              ((l.filter (fun r' => r'.category == c)).map (·.amount)).sum
          else ((l.filter (fun r' => r'.category == c)).map (·.amount)).sum := by
      intro c
      rw [List.filter_cons]
      by_cases h : (r.category == c) = true
      · rw [if_pos h, List.map_cons, List.sum_cons, if_pos h]
      · rw [if_neg h, if_neg h]
    rw [List.map_congr_left (fun c _ => hstep c), List.map_cons, List.sum_cons,
      sum_map_ite_add _ _ cs r.category hnd (hcov r (List.mem_cons_self r l)),
      ih cs hnd (fun r' hr' => hcov r' (List.mem_cons_of_mem r hr'))]

/-- The `groupby`-then-sum totals repartition the plain total: the sum of
the per-category sums equals the sum over all rows. -/
theorem catTotals_sum (rows : List Row) :
    ((catTotalsOf rows).map (·.2)).sum = pySum (rows.map (·.amount)) := by
  unfold catTotalsOf pySum categoriesOf
  rw [List.map_map]
  exact sum_fibers rows _ (List.nodup_dedup _)
    (fun r hr => List.mem_dedup.mpr (List.mem_map_of_mem _ hr))

/-- C1 counterexample: with an imported negative expense (category `"A"`
totals −5, category `"B"` totals 10), the pie chart drops the non-positive
category, so its per-category totals sum to 10 while the total-expenses
figure for the same selection is 5. -/
theorem C1_counterexample :
    ((pieTotalsOf (expensesOf (monthFiltered
        [⟨"05 Jan 2025", "Expense", "A", .finite (-5), ""⟩,
         ⟨"05 Jan 2025", "Expense", "B", .finite 10, ""⟩] none))).map
      (·.2)).sum = .finite 10 ∧
    totalExpenses
        [⟨"05 Jan 2025", "Expense", "A", .finite (-5), ""⟩,
         ⟨"05 Jan 2025", "Expense", "B", .finite 10, ""⟩] none = .finite 5 ∧
    PyFloat.finite 10 ≠ PyFloat.finite 5 := by
  refine ⟨?_, ?_, by decide⟩
  · simp [pieTotalsOf, catTotalsOf, categoriesOf, expensesOf, monthFiltered,
      pySum, asciiLower, List.dedup, PyFloat.add_def, PyFloat.add, PyFloat.lt]
  · simp [totalExpenses, totalExpensesOf, expensesOf, monthFiltered, pySum,
      asciiLower, PyFloat.add_def, PyFloat.add]
    norm_num

/-- C1 (amended): for every ledger state and month selection, *provided
every per-category expense total is positive* (which holds in particular
when all amounts are positive), the sum over categories of the per-category
expense totals computed for the dashboard pie chart equals the
total-expenses figure for that selection.  In general the pie chart omits
categories whose total is not `> 0`, and its sum exceeds the total by the
omitted amounts. -/
theorem C1_pie_sum_eq_total_expenses (l : List Row) (sel : MonthSel)
    (h : ∀ p ∈ catTotalsOf (expensesOf (monthFiltered l sel)),
      PyFloat.lt (.finite 0) p.2 = true) :
    ((pieTotalsOf (expensesOf (monthFiltered l sel))).map (·.2)).sum
      = totalExpenses l sel := by
  unfold pieTotalsOf
  rw [List.filter_eq_self.mpr h, catTotals_sum]
  rfl

/-- Witness for C1 (amended) on a two-category all-positive ledger. -/
theorem C1_pie_sum_eq_total_expenses_witness :
    (∀ p ∈ catTotalsOf (expensesOf (monthFiltered
        [⟨"05 Jan 2025", "Expense", "A", .finite 5, ""⟩,
         ⟨"05 Jan 2025", "Expense", "B", .finite 10, ""⟩] none)),
      PyFloat.lt (.finite 0) p.2 = true) ∧
    ((pieTotalsOf (expensesOf (monthFiltered
        [⟨"05 Jan 2025", "Expense", "A", .finite 5, ""⟩,
         ⟨"05 Jan 2025", "Expense", "B", .finite 10, ""⟩] none))).map
      (·.2)).sum =
      totalExpenses
        [⟨"05 Jan 2025", "Expense", "A", .finite 5, ""⟩,
         ⟨"05 Jan 2025", "Expense", "B", .finite 10, ""⟩] none := by
  have h : ∀ p ∈ catTotalsOf (expensesOf (monthFiltered
      [⟨"05 Jan 2025", "Expense", "A", .finite 5, ""⟩,
       ⟨"05 Jan 2025", "Expense", "B", .finite 10, ""⟩] none)),
      PyFloat.lt (.finite 0) p.2 = true := by
    simp [catTotalsOf, categoriesOf, expensesOf, monthFiltered, pySum,
      asciiLower, List.dedup, PyFloat.add_def, PyFloat.add, PyFloat.lt]
  exact ⟨h, C1_pie_sum_eq_total_expenses _ none h⟩

/-- The spec's per-row invariant: amount > 0, type is Income or Expense,
category non-empty and not composed entirely of digits. -/
def GoodRow (r : Row) : Prop :=
  PyFloat.lt (.finite 0) r.amount = true ∧
  (r.type = "Income" ∨ r.type = "Expense") ∧
  r.category ≠ "" ∧ pyIsDigitStr r.category = false

/-- The invariant the add path actually establishes: the amount validation
only excludes `amount <= 0`, which a `nan` amount also passes. -/
def GoodRowA (r : Row) : Prop :=
  PyFloat.le r.amount (.finite 0) = false ∧
  (r.type = "Income" ∨ r.type = "Expense") ∧
  r.category ≠ "" ∧ pyIsDigitStr r.category = false

def isAddOrDelete : Op → Bool
  | .add _ _ _ _ _ => true
  | .delete _ => true
  | _ => false

/-- Either `add_entry` rejects (ledger unchanged) or it appends one fully
validated row. -/
theorem addEntryRun_ledger_cases (st : AppState) (d t c a n : String) :
    (addEntryRun st d t c a n).1.ledger = st.ledger ∨
    ∃ p, PyFloat.le p (.finite 0) = false ∧
      (pyStrip t = "Income" ∨ pyStrip t = "Expense") ∧
      categoryRegexOk (pyStrip c) = true ∧
      pyIsDigitStr (pyStrip c) = false ∧
      (addEntryRun st d t c a n).1.ledger =
        st.ledger ++ [⟨d, pyStrip t, pyStrip c, p, pyStrip n⟩] := by
  unfold addEntryRun
  dsimp only
  split
  · left; rfl
  next =>
    split
    · left; rfl
    next h2 =>
      split
      · left; rfl
      next p hp =>
        split
        · left; rfl
        next hpos =>
          split
          · left; rfl
          next hreg =>
            split
            · left; rfl
            next hdig =>
              right
              exact ⟨p, Bool.eq_false_iff.mpr hpos, not_not.mp h2,
                not_not.mp hreg, Bool.eq_false_iff.mpr hdig, rfl⟩

/-- C4 counterexample: one import operation on the empty state brings in a
row with amount −5 (import validates only the type and the date), so the
ledger contains a transaction violating `amount > 0`. -/
theorem C4_counterexample :
    (applyOps ⟨[], []⟩ [.importFile (some ⟨COLUMNS,
        [⟨"05 Jan 2025", "Expense", "Food", .finite (-5), ""⟩]⟩)]).ledger =
      [⟨"05 Jan 2025", "Expense", "Food", .finite (-5), ""⟩] ∧
    ¬ GoodRow ⟨"05 Jan 2025", "Expense", "Food", .finite (-5), ""⟩ := by
  constructor
  · decide
  · unfold GoodRow
    decide

/-- C4 (amended): after any sequence of add and delete operations starting
from a state whose rows satisfy it, every transaction in the ledger
satisfies: amount not `≤ 0` (hence `> 0` unless a `nan` amount was entered,
which the validation does not exclude), type ∈ {Income, Expense}, and
category non-empty and not all digits.  Edit validates only the amount,
and import only type and date, so neither preserves the full invariant —
see the counterexample. -/
theorem C4_add_delete_preserve_invariant (ops : List Op) :
    ∀ st : AppState, (∀ op ∈ ops, isAddOrDelete op = true) →
      (∀ r ∈ st.ledger, GoodRowA r) →
      ∀ r ∈ (applyOps st ops).ledger, GoodRowA r := by
  induction ops with
  | nil => intro st _ hst; exact hst
  | cons op ops ih =>
    intro st hops hst
    rw [applyOps, List.foldl_cons]
    apply ih (applyOp st op) (fun o ho => hops o (List.mem_cons_of_mem op ho))
    have hop := hops op (List.mem_cons_self op ops)
    cases op with
    | add d t c a n =>
      rcases addEntryRun_ledger_cases st d t c a n with heq | ⟨p, h1, h2, h3, h4, heq⟩
      · intro r hr
        rw [applyOp] at hr
        rw [heq] at hr
        exact hst r hr
      · intro r hr
        rw [applyOp] at hr
        rw [heq] at hr
        rcases List.mem_append.mp hr with hr | hr
        · exact hst r hr
        · rcases List.mem_singleton.mp hr with rfl
          refine ⟨h1, h2, ?_, h4⟩
          intro hc
          have hc2 : pyStrip c = "" := hc
          rw [hc2] at h3
          exact absurd h3 (by decide)
    | delete i =>
      intro r hr
      rw [applyOp] at hr
      exact hst r (List.eraseIdx_subset _ _ hr)
    | edit i t c a n => simp [isAddOrDelete] at hop
    | importFile f => simp [isAddOrDelete] at hop

/-- Witness for C4 (amended): an add followed by a delete on the empty
state. -/
theorem C4_add_delete_preserve_invariant_witness :
    (∀ op ∈ [Op.add "05 Jan 2025" "Income" "Food" "10" "",
        Op.delete 0], isAddOrDelete op = true) ∧
    (∀ r ∈ (⟨[], []⟩ : AppState).ledger, GoodRowA r) ∧
    ∀ r ∈ (applyOps ⟨[], []⟩ [Op.add "05 Jan 2025" "Income" "Food" "10" "",
        Op.delete 0]).ledger, GoodRowA r := by
  have h1 : ∀ op ∈ [Op.add "05 Jan 2025" "Income" "Food" "10" "",
      Op.delete 0], isAddOrDelete op = true := by decide
  have h2 : ∀ r ∈ (⟨[], []⟩ : AppState).ledger, GoodRowA r := by
    intro r hr
    cases hr
  exact ⟨h1, h2, C4_add_delete_preserve_invariant _ _ h1 h2⟩

/-- C7 counterexample: the edit path (`save_changes`) validates only the
amount, so an all-digits category `"123"` is accepted and written to the
ledger, contradicting "such category strings are always rejected". -/
theorem C7_counterexample :
    saveChangesRun ⟨[⟨"05 Jan 2025", "Income", "Salary", .finite 200, "n"⟩],
        [⟨"05 Jan 2025", "Income", "Salary", .finite 200, "n"⟩]⟩ 0
        "Expense" "123" "10" "" =
      (⟨[⟨"05 Jan 2025", "Expense", "123", .finite 10, ""⟩],
        [⟨"05 Jan 2025", "Expense", "123", .finite 10, ""⟩]⟩, none) ∧
    pyIsDigitStr "123" = true := by
  constructor
  · decide
  · decide

/-- C7 (amended): on the add path, the validation rejects the entry
whenever the trimmed category consists only of digits or fails the regex
`^[A-Za-z0-9\s\-]+$` (i.e. contains a character that is not a letter,
digit, whitespace or hyphen — pandas-Python `\s` admits whitespace beyond
the space character, which the original wording's class `[A-Za-z0-9 -]`
does not).  The edit path performs no category validation at all — see the
counterexample. -/
theorem C7_category_validation_add_path (c : String)
    (h : pyIsDigitStr (pyStrip c) = true ∨ categoryRegexOk (pyStrip c) = false) :
    ∀ st d t a n, ∃ e, addEntryRun st d t c a n = (st, some e) := by
  intro st d t a n
  unfold addEntryRun
  dsimp only
  split
  · exact ⟨_, rfl⟩
  split
  · exact ⟨_, rfl⟩
  split
  · exact ⟨_, rfl⟩
  next p hp =>
    split
    · exact ⟨_, rfl⟩
    rcases h with hd | hr
    · by_cases hreg : categoryRegexOk (pyStrip c) = true
      · rw [if_neg (not_not_intro hreg), if_pos hd]
        exact ⟨_, rfl⟩
      · rw [if_pos hreg]
        exact ⟨_, rfl⟩
    · have hreg : ¬ categoryRegexOk (pyStrip c) = true := by
        rw [hr]
        exact Bool.false_ne_true
      rw [if_pos hreg]
      exact ⟨_, rfl⟩

/-- Witness for C7 (amended) at the all-digits category `"123"`. -/
theorem C7_category_validation_add_path_witness :
    (pyIsDigitStr (pyStrip "123") = true ∨
      categoryRegexOk (pyStrip "123") = false) ∧
    ∃ e, addEntryRun ⟨[], []⟩ "05 Jan 2025" "Income" "123" "10" "" =
      (⟨[], []⟩, some e) := by
  have h : pyIsDigitStr (pyStrip "123") = true ∨
      categoryRegexOk (pyStrip "123") = false := Or.inl (by decide)
  exact ⟨h, C7_category_validation_add_path "123" h ⟨[], []⟩ "05 Jan 2025"
    "Income" "10" ""⟩

/-- A row as the application itself writes it: type is exactly `Income` or
`Expense`, and the date string round-trips through parse-and-reformat
(every `strftime("%d %b %Y")` output in the supported year range does). -/
def StorageRow (r : Row) : Prop :=
  (r.type = "Income" ∨ r.type = "Expense") ∧
  ∃ t : Nat × Nat × Nat, parseDate? r.date = some t ∧
    formatStoredDate t.1 t.2.1 t.2.2 = r.date

theorem filterMap_id_of (f : Row → Option Row) :
    ∀ l : List Row, (∀ r ∈ l, f r = some r) → l.filterMap f = l := by
  intro l
  induction l with
  | nil => intro _; rfl
  | cons r l ih =>
    intro h
    rw [List.filterMap_cons, h r (List.mem_cons_self r l),
      ih (fun x hx => h x (List.mem_cons_of_mem r hx))]

/-- C5 counterexample: `import_csv` *appends* the imported rows to the
current ledger (`pd.concat([df, imported_df])`), so exporting a one-row
ledger and importing the same file yields a two-row ledger, not an
equivalent one. -/
theorem C5_counterexample :
    (importCsvRun
        (⟨[⟨"05 Jan 2025", "Income", "Salary", .finite 200, ""⟩],
          [⟨"05 Jan 2025", "Income", "Salary", .finite 200, ""⟩]⟩ : AppState)
        (exportFile
          (⟨[⟨"05 Jan 2025", "Income", "Salary", .finite 200, ""⟩],
            [⟨"05 Jan 2025", "Income", "Salary", .finite 200, ""⟩]⟩ :
              AppState))).1.ledger =
      [⟨"05 Jan 2025", "Income", "Salary", .finite 200, ""⟩,
        ⟨"05 Jan 2025", "Income", "Salary", .finite 200, ""⟩] ∧
    ([⟨"05 Jan 2025", "Income", "Salary", .finite 200, ""⟩,
        ⟨"05 Jan 2025", "Income", "Salary", .finite 200, ""⟩] : List Row) ≠
      [⟨"05 Jan 2025", "Income", "Salary", .finite 200, ""⟩] := by
  constructor
  · decide
  · decide

/-- C5 (amended): for every ledger state all of whose rows are in storage
form (type exactly `Income`/`Expense`, date a stored-format string),
exporting and then importing the same file *appends* an exact copy of the
exported rows to the ledger (amounts equal — the model's CSV cell
round-trip is exact, matching Python's `float`→`repr`→`float`): the
resulting in-memory ledger and persisted CSV are the original rows followed
by that copy, not just the original rows.  Importing the exported file into
an empty ledger reproduces the ledger exactly. -/
theorem C5_export_import_appends_copy (st : AppState)
    (h : ∀ r ∈ st.ledger, StorageRow r) :
    importCsvRun st (exportFile st) =
      (⟨st.ledger ++ st.ledger, st.ledger ++ st.ledger⟩, none) ∧
    importCsvRun ⟨[], []⟩ (exportFile st) =
      (⟨st.ledger, st.ledger⟩, none) := by
  have hhdr : COLUMNS.find? (fun c =>
      !((COLUMNS.map (fun s => pyTitle (pyStrip s))).contains c)) = none := by
    decide
  have hmap : st.ledger.map (fun r => { r with type := pyTitle r.type })
      = st.ledger := by
    have hcong : ∀ r ∈ st.ledger,
        (fun r : Row => { r with type := pyTitle r.type }) r = id r := by
      intro r hr
      have hty : pyTitle r.type = r.type := by
        rcases (h r hr).1 with ht | ht <;> rw [ht] <;> decide
      show ({ r with type := pyTitle r.type } : Row) = r
      rw [hty]
    rw [List.map_congr_left hcong, List.map_id]
  have hfilter : st.ledger.filter
      (fun r => r.type == "Income" || r.type == "Expense") = st.ledger := by
    apply List.filter_eq_self.mpr
    intro r hr
    rcases (h r hr).1 with ht | ht <;> rw [ht] <;> rfl
  have hdate : st.ledger.filterMap (fun r =>
      (parseDate? r.date).map
        (fun t => { r with date := formatStoredDate t.1 t.2.1 t.2.2 }))
      = st.ledger := by
    apply filterMap_id_of
    intro r hr
    obtain ⟨t, hpt, hft⟩ := (h r hr).2
    rw [hpt, Option.map_some', hft]
  constructor
  · unfold importCsvRun exportFile
    dsimp only
    rw [hhdr]
    dsimp only
    rw [hmap, hfilter, hdate]
  · unfold importCsvRun exportFile
    dsimp only
    rw [hhdr]
    dsimp only
    rw [hmap, hfilter, hdate]
    rfl

/-- Witness for C5 (amended) on a one-row storage-form state. -/
theorem C5_export_import_appends_copy_witness :
    (∀ r ∈ (⟨[⟨"05 Jan 2025", "Income", "Salary", .finite 200, ""⟩],
        [⟨"05 Jan 2025", "Income", "Salary", .finite 200, ""⟩]⟩ :
          AppState).ledger, StorageRow r) ∧
    importCsvRun
        (⟨[⟨"05 Jan 2025", "Income", "Salary", .finite 200, ""⟩],
          [⟨"05 Jan 2025", "Income", "Salary", .finite 200, ""⟩]⟩ : AppState)
        (exportFile
          (⟨[⟨"05 Jan 2025", "Income", "Salary", .finite 200, ""⟩],
            [⟨"05 Jan 2025", "Income", "Salary", .finite 200, ""⟩]⟩ :
              AppState)) =
      (⟨[⟨"05 Jan 2025", "Income", "Salary", .finite 200, ""⟩] ++
          [⟨"05 Jan 2025", "Income", "Salary", .finite 200, ""⟩],
        [⟨"05 Jan 2025", "Income", "Salary", .finite 200, ""⟩] ++
          [⟨"05 Jan 2025", "Income", "Salary", .finite 200, ""⟩]⟩, none) := by
  have h : ∀ r ∈ (⟨[⟨"05 Jan 2025", "Income", "Salary", .finite 200, ""⟩],
      [⟨"05 Jan 2025", "Income", "Salary", .finite 200, ""⟩]⟩ :
        AppState).ledger, StorageRow r := by
    intro r hr
    rw [List.mem_singleton.mp hr]
    exact ⟨Or.inl rfl, ⟨(5, 1, 2025), by decide, by decide⟩⟩
  exact ⟨h, (C5_export_import_appends_copy _ h).1⟩
